import Mathlib

/-!
Shallow embedding of the starry-vdso time-distribution core.

The Rust sources embedded here are `src/update.rs` and `src/vdso.rs` (the
two files contain byte-identical copies of `clocks_calc_mult_shift`,
`update_vdso_clock` and the seqlock write primitives; one Lean definition
covers both), together with `prepare_vdso_pages`, `VdsoAllocGuard` and
`calculate_vdso_aslr_addr` from `src/vdso.rs` and `ClockMode` from
`src/config.rs`.

Machine integers (`u32`, `u64`, `u128`, `usize`) are modelled as `Nat`
with explicit `% 2 ^ 64` (resp. `% 2 ^ 32`) at the operations where the
Rust code wraps (`wrapping_mul`, `wrapping_add`, `wrapping_sub`).
`u128` intermediates in the frequency converter never exceed `2 ^ 97`
for `u64` inputs, so plain `Nat` arithmetic is exact there.
-/

/-- `axplat::time::NANOS_PER_SEC`. -/
def NANOS_PER_SEC : Nat := 1000000000

/-- `PAGE_SIZE_4K` from `src/vdso.rs`. -/
def PAGE_SIZE_4K : Nat := 4096

/-- `u32::MAX`. -/
def U32_MAX : Nat := 4294967295

/-- `ClockMode::None as i32` (first variant of the `#[repr(i32)]` enum in
`src/config.rs`, on every architecture). -/
def ClockModeNone : Int := 0

/-- The `while tmp != 0 { tmp >>= 1; sftacc -= 1; }` loop of
`clocks_calc_mult_shift`.  The loop halves `tmp` until it reaches zero,
so it runs `Nat.size tmp` iterations; `tmp` is a `u64` value, hence a
fuel of 64 always suffices and the fuel-exhaustion branch is unreachable
for the arguments the embedding passes. -/
def sftaccWhile : Nat → Nat → Int → Int
  | 0, _, acc => acc
  | _ + 1, 0, acc => acc
  | fuel + 1, t + 1, acc => sftaccWhile fuel ((t + 1) / 2) (acc - 1)

/-- The `for sft in (1..=32).rev()` scan of `clocks_calc_mult_shift`:
the argument counts the shifts still to try, so `calcShiftScan fr to sftacc n`
tries `sft = n, n - 1, ..., 1` and falls through to the
`(u32::MAX, 0)` sentinel.  The body computes
`tmp128 = ((to as u128) << sft + (from as u128) / 2) / (from as u128)`
(exact in `Nat` for `u64` inputs), accepts the first `sft` with
`sftacc <= 0 || (tmp128 >> sftacc) == 0` (the `||` short-circuits, so the
shift amount is only taken when `sftacc > 0`, matching `sftacc as u128`),
and clamps the returned multiplier to `u32::MAX`. -/
def calcShiftScan (fr tov : Nat) (sftacc : Int) : Nat → Nat × Nat
  | 0 => (U32_MAX, 0)
  | sft + 1 =>
    let tmp128 := (tov * 2 ^ (sft + 1) + fr / 2) / fr
    if sftacc ≤ 0 ∨ tmp128 >>> sftacc.toNat = 0 then
      (if U32_MAX < tmp128 then U32_MAX else tmp128, sft + 1)
    else
      calcShiftScan fr tov sftacc sft

/-- `clocks_calc_mult_shift(from, to, maxsec)` from `src/update.rs`
lines 146-174 (= `src/vdso.rs` lines 25-53).

`tmp = ((maxsec as u64).wrapping_mul(from)) >> 32` is the wrapped `u64`
product shifted right by 32.

The Rust body has no check of `from`: when `from == 0` the first loop
iteration evaluates `numer / (from as u128)`, a `u128` division by zero,
which aborts the program.  The embedding models that abnormal termination
as `none`; every `some` result is a normal return of the Rust function. -/
def clocks_calc_mult_shift (fr tov maxsec : Nat) : Option (Nat × Nat) :=
  if fr = 0 then none
  else
    let tmp := ((maxsec * fr) % 2 ^ 64) >>> 32
    some (calcShiftScan fr tov (sftaccWhile 64 tmp 32) 32)

example : clocks_calc_mult_shift 24000000 1000000000 10 = some (2796202667, 26) := by decide
example : clocks_calc_mult_shift 1 1 1 = some (2147483648, 31) := by decide
example : clocks_calc_mult_shift 1 2 1 = some (2147483648, 30) := by decide
example : clocks_calc_mult_shift 15 3 1 = some (858993459, 32) := by decide
example : clocks_calc_mult_shift 0 1000000000 10 = none := by decide

/-- `VdsoTimestamp` (`src/update.rs` lines 13-18): seconds and a
nanosecond field that is shift-scaled for counter-derived bases. -/
structure VdsoTimestamp where
  sec : Nat
  nsec : Nat
deriving DecidableEq

/-- `VdsoClock` (`src/update.rs` lines 29-38).  `seq` is an `AtomicU32`
and `cycle_last` an `AtomicU64`; since the writer is the only mutator and
every access in the embedded code is a plain load/store, they are modelled
as their contained values.  `basetime` is the `[VdsoTimestamp; 16]` array
(`VDSO_BASES = 16`), modelled as a list of length 16. -/
structure VdsoClock where
  seq : Nat
  clock_mode : Int
  cycle_last : Nat
  mask : Nat
  mult : Nat
  shift : Nat
  basetime : List VdsoTimestamp
deriving DecidableEq

/-- `VdsoClock::new()` (`src/update.rs` lines 42-53). -/
def VdsoClock.new : VdsoClock :=
  { seq := 0
    clock_mode := 1
    cycle_last := 0
    mask := 2 ^ 64 - 1
    mult := 0
    shift := 32
    basetime := List.replicate 16 ⟨0, 0⟩ }

/-- `VdsoClock::write_seqcount_begin` (`src/update.rs` lines 55-59):
load `seq`, store `seq.wrapping_add(1)`.  The `SeqCst` fence orders
memory accesses and has no effect on the single-writer state. -/
def write_seqcount_begin (clk : VdsoClock) : VdsoClock :=
  { clk with seq := (clk.seq + 1) % 2 ^ 32 }

/-- `VdsoClock::write_seqcount_end` (`src/update.rs` lines 61-65):
fence, then load `seq`, store `seq.wrapping_add(1)`. -/
def write_seqcount_end (clk : VdsoClock) : VdsoClock :=
  { clk with seq := (clk.seq + 1) % 2 ^ 32 }

/-- The assignment block repeated verbatim in all three adoption branches
of `update_vdso_clock` (`src/update.rs` lines 90-94, 98-102, 108-112):
`clk.mult = mult; clk.shift = shift;
clk.basetime[1].sec = mono_ns / NANOS_PER_SEC;
clk.basetime[1].nsec = (mono_ns % NANOS_PER_SEC) << shift;
clk.cycle_last.store(cycle_now)`.
The `u64` left shift is `* 2 ^ shift % 2 ^ 64` (the shift amounts the
program produces are at most 32, so no bits are lost for real inputs). -/
def adoptCandidate (clk : VdsoClock) (ms : Nat × Nat) (mono_ns cycle_now : Nat) : VdsoClock :=
  { clk with
    mult := ms.1
    shift := ms.2
    basetime := clk.basetime.set 1
      ⟨mono_ns / NANOS_PER_SEC, (mono_ns % NANOS_PER_SEC) * 2 ^ ms.2 % 2 ^ 64⟩
    cycle_last := cycle_now }

/-- `update_vdso_clock(clk, cycle_now, wall_ns, mono_ns, mult_shift)`
(`src/update.rs` lines 69-142 = `src/vdso.rs` lines 235-308).

`prev_basetime_ns` is
`basetime[1].sec.wrapping_mul(NANOS_PER_SEC).wrapping_add(basetime[1].nsec)`;
`delta_cycles` is `cycle_now.wrapping_sub(prev_cycle) & mask`
(`wrapping_sub` on `u64` values `a`, `b` is `(a + 2 ^ 64 - b) % 2 ^ 64`);
`delta_ns` is `mono_ns.saturating_sub(prev_basetime_ns)`, which is `Nat`
truncated subtraction.  The inner call
`clocks_calc_mult_shift(delta_cycles, delta_ns, 1)` happens only when
`delta_cycles != 0`, so its `none` (division-by-zero) case is
unreachable; the embedding returns the record unchanged there.
The final `log::trace!` block reads state but mutates nothing and is
omitted. -/
def update_vdso_clock (clk : VdsoClock) (cycle_now wall_ns mono_ns : Nat)
    (mult_shift : Nat × Nat) : VdsoClock :=
  let prev_cycle := clk.cycle_last
  let bt1 := clk.basetime.getD 1 ⟨0, 0⟩
  let prev_basetime_ns := (bt1.sec * NANOS_PER_SEC + bt1.nsec) % 2 ^ 64
  let clk1 :=
    if clk.clock_mode ≠ ClockModeNone then
      if prev_cycle = 0 then
        adoptCandidate clk mult_shift mono_ns cycle_now
      else if ¬(mult_shift.1 = U32_MAX ∧ mult_shift.2 = 0) then
        adoptCandidate clk mult_shift mono_ns cycle_now
      else
        let delta_cycles := ((cycle_now + 2 ^ 64 - prev_cycle) % 2 ^ 64) &&& clk.mask
        let delta_ns := mono_ns - prev_basetime_ns
        if delta_cycles ≠ 0 ∧ 0 < delta_ns then
          match clocks_calc_mult_shift delta_cycles delta_ns 1 with
          | some ms => adoptCandidate clk ms mono_ns cycle_now
          | none => clk
        else clk
    else
      { clk with
        mult := 0
        basetime := clk.basetime.set 1 ⟨mono_ns / NANOS_PER_SEC, mono_ns % NANOS_PER_SEC⟩
        cycle_last := 0 }
  let sh := clk1.shift
  let bt0set := clk1.basetime.set 0
    ⟨wall_ns / NANOS_PER_SEC, (wall_ns % NANOS_PER_SEC) * 2 ^ sh % 2 ^ 64⟩
  { clk1 with basetime := bt0set.set 7 (bt0set.getD 1 ⟨0, 0⟩) }

/-- A call to one of the two seqlock write primitives. -/
inductive SeqOp where
  | wBegin
  | wEnd
deriving DecidableEq

/-- One writer step: the clock record together with a flag recording
whether a write is currently in progress.  `wBegin` runs
`write_seqcount_begin` and opens the critical section, `wEnd` runs
`write_seqcount_end` and closes it. -/
def seqStep (s : VdsoClock × Bool) (op : SeqOp) : VdsoClock × Bool :=
  match op with
  | SeqOp.wBegin => (write_seqcount_begin s.1, true)
  | SeqOp.wEnd => (write_seqcount_end s.1, false)

/-- Run a sequence of seqlock write calls. -/
def seqRun (s : VdsoClock × Bool) (ops : List SeqOp) : VdsoClock × Bool :=
  ops.foldl seqStep s

/-- Proper pairing of `wBegin`/`wEnd` calls starting from writer flag `w`:
`wBegin` is only allowed outside a write, `wEnd` only inside one. -/
def seqValid : Bool → List SeqOp → Bool
  | _, [] => true
  | false, SeqOp.wBegin :: rest => seqValid true rest
  | true, SeqOp.wEnd :: rest => seqValid false rest
  | _, _ => false

/-- `calculate_vdso_aslr_addr` (`src/vdso.rs` lines 489-513), with the
external `Pcg64Mcg` generator abstracted: `draw` stands for the
`rng.next_u64() as usize` value obtained from the time/address-derived
seed, so quantifying over `draw` covers every seed.
`page_off = draw % VDSO_ASLR_PAGES` with `VDSO_ASLR_PAGES = 256`;
`base_addr = VDSO_USER_ADDR_BASE + page_off * PAGE_SIZE_4K` with
`VDSO_USER_ADDR_BASE = 0x7f00_0000 = 2130706432`; the final address adds
`vdso_page_offset` with `usize::wrapping_add` when it is nonzero. -/
def calculate_vdso_aslr_addr (draw vdso_page_offset : Nat) : Nat × Nat :=
  let page_off := draw % 256
  let base_addr := 2130706432 + page_off * PAGE_SIZE_4K
  let vdso_addr :=
    if vdso_page_offset ≠ 0 then (base_addr + vdso_page_offset) % 2 ^ 64
    else base_addr
  (base_addr, vdso_addr)

/-- `core::ptr::copy_nonoverlapping(src, dest.add(off), src.len())` on the
byte-list model of memory: write the source bytes one by one into the
destination starting at `off`. -/
def copyNonoverlapping (src dest : List Nat) (off : Nat) : List Nat :=
  match src with
  | [] => dest
  | b :: rest => copyNonoverlapping rest (dest.set off b) (off + 1)

/-- The `axerrno::AxError` values relevant to this crate
(`prepare_vdso_pages` only ever produces `InvalidExecutable`). -/
inductive AxError where
  | InvalidExecutable
  | NoMemory
deriving DecidableEq

/-- The `VdsoPageInfo` tuple returned by `prepare_vdso_pages`
(`src/vdso.rs` lines 338-344): physical address of the page-aligned
region, the borrowed view of the blob bytes, total aligned size, sub-page
offset of the blob start, and the optional owned allocation
`(start virtual address, page count)`.  `buf` additionally models the
contents of the allocated buffer (the heap memory the pointers refer to);
it is `none` exactly when no allocation was made. -/
structure VdsoPrep where
  paddr : Nat
  bytes : List Nat
  aligned_size : Nat
  sub_page_off : Nat
  alloc : Option (Nat × Nat)
  buf : Option (List Nat)
deriving DecidableEq

/-- `prepare_vdso_pages(vdso_kstart, vdso_kend)` (`src/vdso.rs` lines
347-386).  The memory image `[vdso_kstart, vdso_kend)` is passed as the
byte list `blob` (so `orig_vdso_len = vdso_kend - vdso_kstart` is
`blob.length`).  The external collaborators are parameters: `v2p` models
`virt_to_phys` and `allocAddr sz` models `alloc_zeroed` on a layout of
size `sz` and alignment 4096, returning `none` for a null pointer.
`Layout::from_size_align(sz, 4096)` fails exactly when `sz` exceeds
`isize::MAX` (the size is already a multiple of the alignment), modelled
by the `2 ^ 63 ≤ vdso_size` test.

The second component of the result is the allocation effect of the call:
the list of `(address, size)` blocks obtained from the allocator and
still live when the function returns. -/
def prepare_vdso_pages (v2p : Nat → Nat) (allocAddr : Nat → Option Nat)
    (vdso_kstart : Nat) (blob : List Nat) :
    Except AxError VdsoPrep × List (Nat × Nat) :=
  let orig_vdso_len := blob.length
  let orig_page_off := vdso_kstart &&& (PAGE_SIZE_4K - 1)
  if orig_page_off = 0 then
    let vdso_size := (orig_vdso_len + PAGE_SIZE_4K - 1) &&& (2 ^ 64 - PAGE_SIZE_4K)
    (Except.ok ⟨v2p vdso_kstart, blob, vdso_size, 0, none, none⟩, [])
  else
    let total_size := orig_vdso_len + orig_page_off
    let num_pages := (total_size + PAGE_SIZE_4K - 1) / PAGE_SIZE_4K
    let vdso_size := num_pages * PAGE_SIZE_4K
    if 2 ^ 63 ≤ vdso_size then (Except.error AxError.InvalidExecutable, [])
    else
      match allocAddr vdso_size with
      | none => (Except.error AxError.InvalidExecutable, [])
      | some alloc_vaddr =>
        let buf := copyNonoverlapping blob (List.replicate vdso_size 0) orig_page_off
        (Except.ok ⟨v2p alloc_vaddr, (buf.drop orig_page_off).take orig_vdso_len,
            vdso_size, orig_page_off, some (alloc_vaddr, num_pages), some buf⟩,
          [(alloc_vaddr, vdso_size)])

/-- `VdsoAllocGuard` (`src/vdso.rs` lines 389-401). -/
structure VdsoAllocGuard where
  alloc : Option (Nat × Nat)
deriving DecidableEq

/-- `VdsoAllocGuard::new`. -/
def VdsoAllocGuard.new (a : Option (Nat × Nat)) : VdsoAllocGuard := ⟨a⟩

/-- `VdsoAllocGuard::disarm`: clears the held allocation without
releasing it. -/
def VdsoAllocGuard.disarm (_g : VdsoAllocGuard) : VdsoAllocGuard := ⟨none⟩

/-- The `Drop` impl of `VdsoAllocGuard` (`src/vdso.rs` lines 403-413):
the list of `dealloc` calls `(address, size)` it issues.  It frees
`pages * PAGE_SIZE_4K` bytes when the guard still holds an allocation and
`Layout::from_size_align` succeeds on that size. -/
def guardDropFrees (g : VdsoAllocGuard) : List (Nat × Nat) :=
  match g.alloc with
  | none => []
  | some (vaddr, pages) =>
    if 2 ^ 63 ≤ pages * PAGE_SIZE_4K then []
    else [(vaddr, pages * PAGE_SIZE_4K)]

/-- Modelled from the claim wording of C1: same routine as
`update_vdso_clock`, except that `prev_basetime_ns` is the *denormalized*
monotonic base `sec * 1e9 + (nsec >> shift)` (the stored `nsec`
re-interpreted through the record's shift encoding), as the claim's
`denormalize(record.basetime[1])` prescribes.  The actual code adds the
stored `nsec` raw. -/
def update_vdso_clock_denormC1 (clk : VdsoClock) (cycle_now wall_ns mono_ns : Nat)
    (mult_shift : Nat × Nat) : VdsoClock :=
  let prev_cycle := clk.cycle_last
  let bt1 := clk.basetime.getD 1 ⟨0, 0⟩
  let prev_basetime_ns := (bt1.sec * NANOS_PER_SEC + bt1.nsec >>> clk.shift) % 2 ^ 64
  let clk1 :=
    if clk.clock_mode ≠ ClockModeNone then
      if prev_cycle = 0 then
        adoptCandidate clk mult_shift mono_ns cycle_now
      else if ¬(mult_shift.1 = U32_MAX ∧ mult_shift.2 = 0) then
        adoptCandidate clk mult_shift mono_ns cycle_now
      else
        let delta_cycles := ((cycle_now + 2 ^ 64 - prev_cycle) % 2 ^ 64) &&& clk.mask
        let delta_ns := mono_ns - prev_basetime_ns
        if delta_cycles ≠ 0 ∧ 0 < delta_ns then
          match clocks_calc_mult_shift delta_cycles delta_ns 1 with
          | some ms => adoptCandidate clk ms mono_ns cycle_now
          | none => clk
        else clk
    else
      { clk with
        mult := 0
        basetime := clk.basetime.set 1 ⟨mono_ns / NANOS_PER_SEC, mono_ns % NANOS_PER_SEC⟩
        cycle_last := 0 }
  let sh := clk1.shift
  let bt0set := clk1.basetime.set 0
    ⟨wall_ns / NANOS_PER_SEC, (wall_ns % NANOS_PER_SEC) * 2 ^ sh % 2 ^ 64⟩
  { clk1 with basetime := bt0set.set 7 (bt0set.getD 1 ⟨0, 0⟩) }

/-- Modelled from the claim wording of C2: the same scan as
`calcShiftScan`, but accepting a shift when the candidate fits within
`32 - sftacc` bits (the actual code requires it to fit within `sftacc`
bits). -/
def calcShiftScanClaimC2 (fr tov : Nat) (sftacc : Int) : Nat → Nat × Nat
  | 0 => (U32_MAX, 0)
  | sft + 1 =>
    let tmp128 := (tov * 2 ^ (sft + 1) + fr / 2) / fr
    if sftacc ≤ 0 ∨ tmp128 >>> (32 - sftacc).toNat = 0 then
      (if U32_MAX < tmp128 then U32_MAX else tmp128, sft + 1)
    else
      calcShiftScanClaimC2 fr tov sftacc sft

/-- Modelled from the claim wording of C2: `clocks_calc_mult_shift` as
claim C2 describes it, differing from the code only in the bit budget of
the acceptance test. -/
def clocks_calc_mult_shift_claimC2 (fr tov maxsec : Nat) : Option (Nat × Nat) :=
  if fr = 0 then none
  else
    let tmp := ((maxsec * fr) % 2 ^ 64) >>> 32
    some (calcShiftScanClaimC2 fr tov (sftaccWhile 64 tmp 32) 32)

/-- The shifts `n, n-1, ..., 1`, the order in which the converter's scan
tries them. -/
def descShifts : Nat → List Nat
  | 0 => []
  | n + 1 => (n + 1) :: descShifts n

/-- The tick delta of the recalibration branch:
`(cycle_now.wrapping_sub(prev_cycle)) & clk.mask`. -/
def deltaTicks (clk : VdsoClock) (cycle_now : Nat) : Nat :=
  ((cycle_now + 2 ^ 64 - clk.cycle_last) % 2 ^ 64) &&& clk.mask

/-- The stored monotonic base as the recalibration branch reads it:
`basetime[1].sec.wrapping_mul(NANOS_PER_SEC).wrapping_add(basetime[1].nsec)`
— the stored `nsec` is added raw, without undoing its shift encoding. -/
def rawBaseNs (clk : VdsoClock) : Nat :=
  ((clk.basetime.getD 1 ⟨0, 0⟩).sec * NANOS_PER_SEC + (clk.basetime.getD 1 ⟨0, 0⟩).nsec) % 2 ^ 64

/-- A counter-mode clock record whose 32-bit counter has wrapped:
`mask = 0xFFFF_FFFF` and the last anchor tick is near the top of the
32-bit range. -/
def clkWrap : VdsoClock :=
  { VdsoClock.new with cycle_last := 2 ^ 32 - 10, mask := 2 ^ 32 - 1 }

/-- The acceptance test of the converter's scan at a given shift:
`sftacc <= 0 || (candidate >> sftacc) == 0`, i.e. the rounded candidate
multiplier fits within `sftacc` bits. -/
def acceptShift (fr tov : Nat) (sftacc : Int) (sft : Nat) : Bool :=
  decide (sftacc ≤ 0) || ((tov * 2 ^ sft + fr / 2) / fr) >>> sftacc.toNat == 0

/-- A concrete clock record for exercising the recalibration branch: a
counter-mode record whose monotonic base was stored with `shift = 1`
(`basetime[1] = {sec: 0, nsec: 2}`, i.e. 1 ns denormalized) and whose
last anchor tick is 5. -/
def clkC1ex : VdsoClock :=
  { VdsoClock.new with
    cycle_last := 5
    shift := 1
    basetime := (List.replicate 16 (⟨0, 0⟩ : VdsoTimestamp)).set 1 ⟨0, 2⟩ }

example : update_vdso_clock clkC1ex 6 0 3 (U32_MAX, 0) ≠
    update_vdso_clock_denormC1 clkC1ex 6 0 3 (U32_MAX, 0) := by decide
example : clocks_calc_mult_shift_claimC2 24000000 1000000000 10 = some (4294967295, 0) := by
  decide

/-! ## Helper lemmas -/

theorem sftaccWhile_eq (fuel : Nat) :
    ∀ (t : Nat) (acc : Int), t < 2 ^ fuel →
      sftaccWhile fuel t acc = acc - (Nat.size t : Int) := by
  induction fuel with
  | zero =>
    intro t acc ht
    interval_cases t
    simp [sftaccWhile]
  | succ f ih =>
    intro t acc ht
    match t with
    | 0 => simp [sftaccWhile]
    | s + 1 =>
      have hdiv : (s + 1) / 2 < 2 ^ f := by
        rw [Nat.div_lt_iff_lt_mul (by norm_num)]
        calc s + 1 < 2 ^ (f + 1) := ht
        _ = 2 ^ f * 2 := by ring
      have hsize : Nat.size (s + 1) = Nat.size ((s + 1) / 2) + 1 := by
        conv_lhs => rw [← Nat.bit_decomp (s + 1)]
        rw [Nat.size_bit (by rw [Nat.bit_decomp]; exact Nat.succ_ne_zero s), Nat.div2_val]
      rw [show sftaccWhile (f + 1) (s + 1) acc = sftaccWhile f ((s + 1) / 2) (acc - 1) from rfl,
        ih _ _ hdiv, hsize]
      push_cast
      ring

theorem acceptShift_true_iff (fr tov : Nat) (sa : Int) (sft : Nat) :
    acceptShift fr tov sa sft = true ↔
      (sa ≤ 0 ∨ ((tov * 2 ^ sft + fr / 2) / fr) >>> sa.toNat = 0) := by
  simp [acceptShift]

theorem calcShiftScan_eq_find (fr tov : Nat) (sa : Int) :
    ∀ n, calcShiftScan fr tov sa n =
      match (descShifts n).find? (acceptShift fr tov sa) with
      | some sft =>
        (if U32_MAX < (tov * 2 ^ sft + fr / 2) / fr then U32_MAX
         else (tov * 2 ^ sft + fr / 2) / fr, sft)
      | none => (U32_MAX, 0) := by
  intro n
  induction n with
  | zero => rfl
  | succ k ih =>
    by_cases h : acceptShift fr tov sa (k + 1) = true
    · have hcond : sa ≤ 0 ∨ ((tov * 2 ^ (k + 1) + fr / 2) / fr) >>> sa.toNat = 0 :=
        (acceptShift_true_iff fr tov sa (k + 1)).mp h
      simp [calcShiftScan, descShifts, List.find?_cons, h, hcond]
    · have hcond : ¬(sa ≤ 0 ∨ ((tov * 2 ^ (k + 1) + fr / 2) / fr) >>> sa.toNat = 0) := by
        intro hc
        exact h ((acceptShift_true_iff fr tov sa (k + 1)).mpr hc)
      have hb : acceptShift fr tov sa (k + 1) = false := by
        cases hab : acceptShift fr tov sa (k + 1) with
        | true => exact absurd hab h
        | false => rfl
      simp only [calcShiftScan, descShifts, List.find?_cons, hb, if_neg hcond]
      exact ih

theorem calcShiftScan_shift_bound (fr tov : Nat) (sa : Int) :
    ∀ n, (calcShiftScan fr tov sa n).2 ≤ n ∧
      ((calcShiftScan fr tov sa n).2 = 0 → (calcShiftScan fr tov sa n).1 = U32_MAX) := by
  intro n
  induction n with
  | zero => exact ⟨Nat.le_refl 0, fun _ => rfl⟩
  | succ k ih =>
    by_cases hcond : sa ≤ 0 ∨ ((tov * 2 ^ (k + 1) + fr / 2) / fr) >>> sa.toNat = 0
    · simp only [calcShiftScan, if_pos hcond]
      exact ⟨Nat.le_refl _, fun h => absurd h (Nat.succ_ne_zero k)⟩
    · simp only [calcShiftScan, if_neg hcond]
      exact ⟨Nat.le_succ_of_le ih.1, ih.2⟩

/-! ## Claim C2 -/

/-- Claim C2, counterexample.  The claim says a shift is accepted when
`sftacc <= 0` or the candidate fits within `32 - sftacc` bits.  At
`(from, to, maxsec) = (24000000, 1000000000, 10)` the budget is
`sftacc = 32`, so under the claim's reading no candidate (all nonzero)
would ever be accepted and the sentinel `(u32::MAX, 0)` would be
returned; the code instead requires the candidate to fit within `sftacc`
bits and returns `(2796202667, 26)`. -/
theorem calc_budget_counterexample :
    clocks_calc_mult_shift 24000000 1000000000 10 = some (2796202667, 26) ∧
    clocks_calc_mult_shift_claimC2 24000000 1000000000 10 = some (U32_MAX, 0) ∧
    clocks_calc_mult_shift 24000000 1000000000 10 ≠
      clocks_calc_mult_shift_claimC2 24000000 1000000000 10 := by
  refine ⟨by decide, by decide, by decide⟩

/-- Claim C2 (amended): `clocks_calc_mult_shift(from, to, maxsec)` first
derives an accumulator-bit budget `sftacc = 32 - bits((maxsec * from) >> 32)`
(one bit per halving, i.e. `Nat.size` of the wrapped high half), then
scans `shift` from 32 down to 1 computing
`candidate = round((to << shift) / from)`, and returns at the first shift
for which `sftacc <= 0` or the candidate fits within `sftacc` bits
(not `32 - sftacc` bits as the claim stated), with the candidate clamped
to 32 bits as the returned multiplier; if no shift in 1..=32 satisfies
the test it returns the sentinel `(u32::MAX, 0)`. -/
theorem calc_scan_characterization (fr tov maxsec : Nat) (h : fr ≠ 0) :
    clocks_calc_mult_shift fr tov maxsec =
      some (match (descShifts 32).find?
          (acceptShift fr tov (32 - (Nat.size (((maxsec * fr) % 2 ^ 64) >>> 32) : Int))) with
        | some sft =>
          (if U32_MAX < (tov * 2 ^ sft + fr / 2) / fr then U32_MAX
           else (tov * 2 ^ sft + fr / 2) / fr, sft)
        | none => (U32_MAX, 0)) := by
  have hb : ((maxsec * fr) % 2 ^ 64) >>> 32 < 2 ^ 64 := by
    have h1 : (maxsec * fr) % 2 ^ 64 < 2 ^ 64 := Nat.mod_lt _ (by norm_num)
    calc ((maxsec * fr) % 2 ^ 64) >>> 32 ≤ (maxsec * fr) % 2 ^ 64 := by
          rw [Nat.shiftRight_eq_div_pow]
          exact Nat.div_le_self _ _
      _ < 2 ^ 64 := h1
  unfold clocks_calc_mult_shift
  rw [if_neg h]
  show some (calcShiftScan fr tov (sftaccWhile 64 ((maxsec * fr % 2 ^ 64) >>> 32) 32) 32) = _
  rw [sftaccWhile_eq 64 _ 32 hb, calcShiftScan_eq_find]
  norm_num

/-- Claim C2 (amended), witness at `(24000000, 1000000000, 10)`. -/
theorem calc_scan_characterization_witness :
    clocks_calc_mult_shift 24000000 1000000000 10 =
      some (match (descShifts 32).find?
          (acceptShift 24000000 1000000000
            (32 - (Nat.size (((10 * 24000000) % 2 ^ 64) >>> 32) : Int))) with
        | some sft =>
          (if U32_MAX < (1000000000 * 2 ^ sft + 24000000 / 2) / 24000000 then U32_MAX
           else (1000000000 * 2 ^ sft + 24000000 / 2) / 24000000, sft)
        | none => (U32_MAX, 0)) :=
  calc_scan_characterization 24000000 1000000000 10 (by decide)

/-! ## Claim C3 -/

/-- Claim C3, counterexample.  There is no explicit `from != 0` check in
`clocks_calc_mult_shift`: a call with `from == 0` reaches the `u128`
division by zero in the scan loop and aborts (modelled as `none`), so the
function is not total-with-a-defined-result on every input. -/
theorem calc_from_zero_no_guard : clocks_calc_mult_shift 0 1000000000 10 = none := by decide

/-- Claim C3 (amended): `clocks_calc_mult_shift` performs no explicit
check of `from`; a call with `from == 0` reaches the unguarded division
by zero (the abnormal `none` outcome), while for every `from ≠ 0` the
function is total and returns a defined `(mult, shift)` pair. -/
theorem calc_total_iff_from_ne_zero (fr tov maxsec : Nat) :
    (fr = 0 → clocks_calc_mult_shift fr tov maxsec = none) ∧
    (fr ≠ 0 → ∃ p, clocks_calc_mult_shift fr tov maxsec = some p) := by
  constructor
  · intro h
    simp [clocks_calc_mult_shift, h]
  · intro h
    refine ⟨calcShiftScan fr tov (sftaccWhile 64 (((maxsec * fr) % 2 ^ 64) >>> 32) 32) 32, ?_⟩
    simp [clocks_calc_mult_shift, h]

/-- Claim C3 (amended), witness. -/
theorem calc_total_iff_from_ne_zero_witness :
    ∃ p, clocks_calc_mult_shift 24000000 1000000000 10 = some p :=
  (calc_total_iff_from_ne_zero 24000000 1000000000 10).2 (by decide)

/-! ## Claim C10 -/

/-- Claim C10: for every input with `from ≠ 0`, `clocks_calc_mult_shift`
returns a shift of at most 32, and a returned shift of 0 occurs only on
the fallback path, where the multiplier is exactly `u32::MAX` — so
`shift == 0` uniquely identifies the sentinel result (every in-loop
return carries its `sft ∈ 1..=32`). -/
theorem shift_zero_identifies_sentinel (fr tov maxsec : Nat) (h : fr ≠ 0) :
    ∃ m s, clocks_calc_mult_shift fr tov maxsec = some (m, s) ∧ s ≤ 32 ∧
      (s = 0 → m = U32_MAX) := by
  refine ⟨(calcShiftScan fr tov (sftaccWhile 64 (((maxsec * fr) % 2 ^ 64) >>> 32) 32) 32).1,
    (calcShiftScan fr tov (sftaccWhile 64 (((maxsec * fr) % 2 ^ 64) >>> 32) 32) 32).2, ?_, ?_, ?_⟩
  · simp [clocks_calc_mult_shift, h]
  · exact (calcShiftScan_shift_bound fr tov _ 32).1
  · exact (calcShiftScan_shift_bound fr tov _ 32).2

/-- Claim C10, witness. -/
theorem shift_zero_identifies_sentinel_witness :
    ∃ m s, clocks_calc_mult_shift 24000000 1000000000 10 = some (m, s) ∧ s ≤ 32 ∧
      (s = 0 → m = U32_MAX) :=
  shift_zero_identifies_sentinel 24000000 1000000000 10 (by decide)

/-! ## Claim C9 -/

/-- Claim C9: for every random draw (hence any seed),
`calculate_vdso_aslr_addr` returns
`base_addr = BASE + (draw mod 256) * 4096`, which lies in
`[BASE, BASE + 256 * 4096)` and is page-aligned, and
`final_addr = base_addr + sub_page_offset` when the offset is nonzero
(else `final_addr = base_addr`); consequently for every offset in
`(0, 4096)`, `final_addr mod 4096 = sub_page_offset`. -/
theorem aslr_addr_bounds (draw off : Nat) :
    (calculate_vdso_aslr_addr draw off).1 = 2130706432 + draw % 256 * 4096 ∧
    2130706432 ≤ (calculate_vdso_aslr_addr draw off).1 ∧
    (calculate_vdso_aslr_addr draw off).1 < 2130706432 + 256 * 4096 ∧
    (calculate_vdso_aslr_addr draw off).1 % 4096 = 0 ∧
    (off = 0 → (calculate_vdso_aslr_addr draw off).2 = (calculate_vdso_aslr_addr draw off).1) ∧
    (off ≠ 0 →
      (calculate_vdso_aslr_addr draw off).2 =
        ((calculate_vdso_aslr_addr draw off).1 + off) % 2 ^ 64) ∧
    (0 < off → off < 4096 → (calculate_vdso_aslr_addr draw off).2 % 4096 = off) := by
  have h256 : draw % 256 < 256 := Nat.mod_lt _ (by norm_num)
  refine ⟨rfl, ?_, ?_, ?_, ?_, ?_, ?_⟩
  · show 2130706432 ≤ 2130706432 + draw % 256 * 4096
    omega
  · show 2130706432 + draw % 256 * 4096 < 2130706432 + 256 * 4096
    omega
  · show (2130706432 + draw % 256 * 4096) % 4096 = 0
    omega
  · intro h
    show (if off ≠ 0 then (2130706432 + draw % 256 * 4096 + off) % 2 ^ 64
        else 2130706432 + draw % 256 * 4096) = 2130706432 + draw % 256 * 4096
    rw [if_neg (by simp [h])]
  · intro h
    show (if off ≠ 0 then (2130706432 + draw % 256 * 4096 + off) % 2 ^ 64
        else 2130706432 + draw % 256 * 4096) = (2130706432 + draw % 256 * 4096 + off) % 2 ^ 64
    rw [if_pos h]
  · intro h1 h2
    show (if off ≠ 0 then (2130706432 + draw % 256 * 4096 + off) % 2 ^ 64
        else 2130706432 + draw % 256 * 4096) % 4096 = off
    have hlt : 2130706432 + draw % 256 * 4096 + off < 2 ^ 64 := by omega
    rw [if_pos (show off ≠ 0 by omega), Nat.mod_eq_of_lt hlt]
    omega

/-- Claim C9, witness at `draw = 1000`, `off = 100`. -/
theorem aslr_addr_bounds_witness :
    (calculate_vdso_aslr_addr 1000 100).1 % 4096 = 0 ∧
    (calculate_vdso_aslr_addr 1000 100).2 % 4096 = 100 := by
  have h := aslr_addr_bounds 1000 100
  exact ⟨h.2.2.2.1, h.2.2.2.2.2.2 (by decide) (by decide)⟩

/-! ## Claim C4 -/

theorem seqRun_seq_count (ops : List SeqOp) :
    ∀ s : VdsoClock × Bool, s.1.seq < 2 ^ 32 →
      (seqRun s ops).1.seq = (s.1.seq + ops.length) % 2 ^ 32 := by
  induction ops with
  | nil =>
    intro s hs
    show s.1.seq = (s.1.seq + 0) % 2 ^ 32
    omega
  | cons op rest ih =>
    intro s hs
    have hstep : (seqStep s op).1.seq = (s.1.seq + 1) % 2 ^ 32 := by
      cases op <;> simp [seqStep, write_seqcount_begin, write_seqcount_end]
    have hlt : (seqStep s op).1.seq < 2 ^ 32 := by
      rw [hstep]
      exact Nat.mod_lt _ (by norm_num)
    have hrun : seqRun s (op :: rest) = seqRun (seqStep s op) rest := rfl
    rw [hrun, ih _ hlt, hstep, Nat.mod_add_mod]
    congr 1
    simp [List.length_cons]
    omega

theorem seqRun_writer_flag (ops : List SeqOp) :
    ∀ s : VdsoClock × Bool, seqValid s.2 ops = true →
      ((seqRun s ops).2 = true ↔ (s.2.toNat + ops.length) % 2 = 1) := by
  induction ops with
  | nil =>
    intro s _
    cases hs : s.2 <;> simp [seqRun, hs]
  | cons op rest ih =>
    intro s hv
    cases hop : op <;> rw [hop] at hv <;> cases hs : s.2 <;> rw [hs] at hv
    · have hv' : seqValid true rest = true := by simpa [seqValid] using hv
      have hstep := ih (seqStep s SeqOp.wBegin) (by simpa [seqStep] using hv')
      have hrun : seqRun s (SeqOp.wBegin :: rest) = seqRun (seqStep s SeqOp.wBegin) rest := rfl
      rw [hrun, hstep]
      simp [seqStep, hs, List.length_cons]
      omega
    · simp [seqValid] at hv
    · simp [seqValid] at hv
    · have hv' : seqValid false rest = true := by simpa [seqValid] using hv
      have hstep := ih (seqStep s SeqOp.wEnd) (by simpa [seqStep] using hv')
      have hrun : seqRun s (SeqOp.wEnd :: rest) = seqRun (seqStep s SeqOp.wEnd) rest := rfl
      rw [hrun, hstep]
      simp [seqStep, hs, List.length_cons]
      omega

/-- Claim C4: starting from a freshly constructed record (`seq = 0`), for
any properly paired sequence of `write_seqcount_begin` /
`write_seqcount_end` calls, each call increments `seq` by exactly one
(mod `2 ^ 32`), so after `n` calls `seq = n % 2 ^ 32` and `seq` alternates
even, odd, even, ...: it is even exactly when no write is in progress and
odd strictly between a begin and its matching end. -/
theorem seqlock_parity (clk : VdsoClock) (ops : List SeqOp) (h0 : clk.seq = 0)
    (hv : seqValid false ops = true) :
    (seqRun (clk, false) ops).1.seq = ops.length % 2 ^ 32 ∧
    ((seqRun (clk, false) ops).1.seq % 2 = 0 ↔ (seqRun (clk, false) ops).2 = false) := by
  have h1 : (seqRun (clk, false) ops).1.seq = (0 + ops.length) % 2 ^ 32 := by
    have := seqRun_seq_count ops (clk, false) (by simp [h0])
    simpa [h0] using this
  have h2 := seqRun_writer_flag ops (clk, false) (by simpa using hv)
  constructor
  · simpa using h1
  · rw [h1]
    simp only [Bool.toNat_false, Nat.zero_add] at h2
    have hmod : (0 + ops.length) % 2 ^ 32 % 2 = ops.length % 2 := by
      rw [Nat.zero_add]
      exact Nat.mod_mod_of_dvd _ (by norm_num)
    rw [hmod]
    cases hflag : (seqRun (clk, false) ops).2
    · rw [hflag] at h2
      simp only [Bool.false_eq_true, false_iff] at h2
      constructor
      · intro _
        rfl
      · intro _
        omega
    · rw [hflag] at h2
      have hodd : ops.length % 2 = 1 := h2.mp rfl
      constructor
      · intro heven
        omega
      · intro hfalse
        exact absurd hfalse (by simp)

/-- Claim C4, witness: begin/end/begin from a fresh record leaves
`seq = 3`, odd, with a write in progress. -/
theorem seqlock_parity_witness :
    (seqRun (VdsoClock.new, false) [SeqOp.wBegin, SeqOp.wEnd, SeqOp.wBegin]).1.seq =
      [SeqOp.wBegin, SeqOp.wEnd, SeqOp.wBegin].length % 2 ^ 32 ∧
    ((seqRun (VdsoClock.new, false) [SeqOp.wBegin, SeqOp.wEnd, SeqOp.wBegin]).1.seq % 2 = 0 ↔
      (seqRun (VdsoClock.new, false) [SeqOp.wBegin, SeqOp.wEnd, SeqOp.wBegin]).2 = false) :=
  seqlock_parity VdsoClock.new [SeqOp.wBegin, SeqOp.wEnd, SeqOp.wBegin] (by decide) (by decide)

/-! ## Claim C6 -/

/-- Claim C6: for `from = 24_000_000`, `to = 1_000_000_000`,
`max_seconds = 10`, the pair `(mult, shift)` returned by
`clocks_calc_mult_shift` satisfies, for every `cycles` up to
`from * max_seconds`: the product `cycles * mult` does not overflow
64 bits, and (for `cycles > 0`) the relative error
`|((cycles * mult) >> shift) - cycles * to / from| / (cycles * to / from)`
is below `2 ^ -shift` (divisions in `u64` arithmetic; stated
denominator-cleared as `2 ^ shift * |approx - exact| < exact`). -/
theorem calc_mult_shift_accuracy (c m s : Nat)
    (hms : clocks_calc_mult_shift 24000000 1000000000 10 = some (m, s))
    (hc : c ≤ 24000000 * 10) :
    c * m < 2 ^ 64 ∧
    (0 < c →
      2 ^ s * Nat.dist ((c * m) >>> s) (c * 1000000000 / 24000000) <
        c * 1000000000 / 24000000) := by
  rw [show clocks_calc_mult_shift 24000000 1000000000 10 = some (2796202667, 26) from
    by decide] at hms
  have hm : m = 2796202667 := by
    injection hms with h
    exact (Prod.mk.injEq _ _ _ _ ▸ h).1.symm
  have hs : s = 26 := by
    injection hms with h
    exact (Prod.mk.injEq _ _ _ _ ▸ h).2.symm
  subst hm
  subst hs
  constructor
  · calc c * 2796202667 ≤ 240000000 * 2796202667 := Nat.mul_le_mul_right _ (by omega)
    _ < 2 ^ 64 := by norm_num
  · intro hc0
    have hE : c * 1000000000 / 24000000 = 125 * c / 3 := by
      rw [show c * 1000000000 = 125 * c * 8000000 by ring,
        show (24000000 : Nat) = 3 * 8000000 by norm_num,
        Nat.mul_div_mul_right (125 * c) 3 (by norm_num)]
    rw [Nat.shiftRight_eq_div_pow, hE]
    have h1 : 3 * (125 * c / 3) + 125 * c % 3 = 125 * c := Nat.div_add_mod _ 3
    have h2 : 125 * c % 3 < 3 := Nat.mod_lt _ (by norm_num)
    have h3 : 2 ^ 26 * (c * 2796202667 / 2 ^ 26) + c * 2796202667 % 2 ^ 26 =
        c * 2796202667 := Nat.div_add_mod _ _
    have h4 : c * 2796202667 % 2 ^ 26 < 2 ^ 26 := Nat.mod_lt _ (by norm_num)
    simp only [Nat.dist]
    omega

/-- Claim C6, witness at `cycles = 3`. -/
theorem calc_mult_shift_accuracy_witness :
    3 * 2796202667 < 2 ^ 64 ∧
    (0 < 3 →
      2 ^ 26 * Nat.dist ((3 * 2796202667) >>> 26) (3 * 1000000000 / 24000000) <
        3 * 1000000000 / 24000000) :=
  calc_mult_shift_accuracy 3 2796202667 26 (by decide) (by decide)

/-! ## Helper lemmas about list updates -/

theorem getD_set_self {α : Type} (l : List α) (i : Nat) (x d : α) (h : i < l.length) :
    (l.set i x).getD i d = x := by
  simp [List.getD_eq_getElem?_getD, List.getElem?_set_self h]

theorem getD_set_ne {α : Type} (l : List α) (i j : Nat) (x d : α) (h : i ≠ j) :
    (l.set i x).getD j d = l.getD j d := by
  simp [List.getD_eq_getElem?_getD, List.getElem?_set_ne h]

theorem copyNonoverlapping_length : ∀ (src dest : List Nat) (off : Nat),
    (copyNonoverlapping src dest off).length = dest.length := by
  intro src
  induction src with
  | nil => intro dest off; rfl
  | cons b rest ih =>
    intro dest off
    rw [show copyNonoverlapping (b :: rest) dest off =
      copyNonoverlapping rest (dest.set off b) (off + 1) from rfl, ih, List.length_set]

theorem copyNonoverlapping_getD_lt : ∀ (src dest : List Nat) (off j d : Nat), j < off →
    (copyNonoverlapping src dest off).getD j d = dest.getD j d := by
  intro src
  induction src with
  | nil => intro dest off j d _; rfl
  | cons b rest ih =>
    intro dest off j d hj
    rw [show copyNonoverlapping (b :: rest) dest off =
      copyNonoverlapping rest (dest.set off b) (off + 1) from rfl,
      ih _ _ _ _ (by omega), getD_set_ne _ _ _ _ _ (by omega)]

theorem copyNonoverlapping_getD_ge : ∀ (src dest : List Nat) (off j d : Nat),
    off + src.length ≤ j →
    (copyNonoverlapping src dest off).getD j d = dest.getD j d := by
  intro src
  induction src with
  | nil => intro dest off j d _; rfl
  | cons b rest ih =>
    intro dest off j d hj
    rw [List.length_cons] at hj
    rw [show copyNonoverlapping (b :: rest) dest off =
      copyNonoverlapping rest (dest.set off b) (off + 1) from rfl,
      ih _ _ _ _ (by omega), getD_set_ne _ _ _ _ _ (by omega)]

theorem copyNonoverlapping_getD_in : ∀ (src dest : List Nat) (off i d : Nat),
    i < src.length → off + src.length ≤ dest.length →
    (copyNonoverlapping src dest off).getD (off + i) d = src.getD i d := by
  intro src
  induction src with
  | nil => intro dest off i d hi _; exact absurd hi (by simp)
  | cons b rest ih =>
    intro dest off i d hi hlen
    rw [List.length_cons] at hi hlen
    rw [show copyNonoverlapping (b :: rest) dest off =
      copyNonoverlapping rest (dest.set off b) (off + 1) from rfl]
    match i with
    | 0 =>
      rw [copyNonoverlapping_getD_lt _ _ _ _ _ (by omega)]
      rw [show off + 0 = off by omega]
      rw [getD_set_self _ _ _ _ (by omega)]
      rfl
    | i + 1 =>
      rw [show off + (i + 1) = (off + 1) + i by omega,
        ih _ _ _ _ (by omega) (by rw [List.length_set]; omega)]
      rfl

theorem copyNonoverlapping_slice (src dest : List Nat) (off : Nat)
    (h : off + src.length ≤ dest.length) :
    ((copyNonoverlapping src dest off).drop off).take src.length = src := by
  apply List.ext_getElem?
  intro n
  by_cases hn : n < src.length
  · rw [List.getElem?_take_of_lt hn, List.getElem?_drop]
    have h1 : off + n < (copyNonoverlapping src dest off).length := by
      rw [copyNonoverlapping_length]
      omega
    have hc := copyNonoverlapping_getD_in src dest off n 0 hn h
    rw [List.getD_eq_getElem?_getD, List.getD_eq_getElem?_getD,
      List.getElem?_eq_getElem h1, List.getElem?_eq_getElem hn] at hc
    simp only [Option.getD_some] at hc
    rw [List.getElem?_eq_getElem h1, List.getElem?_eq_getElem hn, hc]
  · rw [List.getElem?_take_eq_none (by omega), List.getElem?_eq_none (by omega)]

/-- For `y < 2 ^ 64`, the `usize` masking `y & !(PAGE_SIZE_4K - 1)` (i.e.
`y &&& (2 ^ 64 - 4096)`) rounds `y` down to a multiple of 4096. -/
theorem land_align_mask (y : Nat) (hy : y < 2 ^ 64) :
    y &&& (2 ^ 64 - 4096) = y / 4096 * 4096 := by
  have hrhs : y / 4096 * 4096 = (y >>> 12) <<< 12 := by
    rw [Nat.shiftLeft_eq, Nat.shiftRight_eq_div_pow]
  have hmask : (2 ^ 64 - 4096 : Nat) = (2 ^ 52 - 1) <<< 12 := by
    rw [Nat.shiftLeft_eq]
    norm_num
  rw [hrhs, hmask]
  apply Nat.eq_of_testBit_eq
  intro i
  rw [Nat.testBit_and, Nat.testBit_shiftLeft, Nat.testBit_shiftLeft,
    Nat.testBit_shiftRight, Nat.testBit_two_pow_sub_one]
  by_cases h12 : 12 ≤ i
  · by_cases h64 : i < 64
    · have hlt : i - 12 < 52 := by omega
      simp [h12, hlt, show 12 + (i - 12) = i by omega]
    · have hy' : Nat.testBit y i = false :=
        Nat.testBit_lt_two_pow
          (lt_of_lt_of_le hy (Nat.pow_le_pow_right (by norm_num) (by omega)))
      have hge : ¬(i - 12 < 52) := by omega
      simp [h12, hge, show 12 + (i - 12) = i by omega, hy']
  · simp [h12]

/-! ## Claim C7 -/

/-- Claim C7: `prepare_vdso_pages` with `len = blob_end - blob_start`:
when `blob_start` is page-aligned it returns the original region in place
with aligned size `round_up(len, 4096)`, sub-page offset 0 and no
owned-allocation descriptor; when `blob_start mod 4096 = off ≠ 0` it
returns sub-page offset `off` and aligned size
`round_up(len + off, 4096)`, together with a page-aligned zero-filled
allocated buffer whose bytes at `[off, off + len)` equal the original
blob bytes and an owned-allocation descriptor (buffer address, page
count). -/
theorem prepare_pages_shape (v2p : Nat → Nat) (allocAddr : Nat → Option Nat)
    (kstart : Nat) (blob : List Nat) (hlen : blob.length < 2 ^ 62)
    (halign : ∀ sz a2, allocAddr sz = some a2 → a2 % 4096 = 0) :
    (kstart &&& 4095 = 0 →
      (prepare_vdso_pages v2p allocAddr kstart blob).1 =
        Except.ok ⟨v2p kstart, blob, (blob.length + 4095) / 4096 * 4096, 0, none, none⟩) ∧
    (∀ off, kstart &&& 4095 = off → off ≠ 0 → ∀ a,
      allocAddr ((blob.length + off + 4095) / 4096 * 4096) = some a →
      ∃ buf : List Nat,
        (prepare_vdso_pages v2p allocAddr kstart blob).1 =
          Except.ok ⟨v2p a, blob, (blob.length + off + 4095) / 4096 * 4096, off,
            some (a, (blob.length + off + 4095) / 4096), some buf⟩ ∧
        a % 4096 = 0 ∧
        buf.length = (blob.length + off + 4095) / 4096 * 4096 ∧
        (buf.drop off).take blob.length = blob ∧
        (∀ j, j < off → buf.getD j 0 = 0) ∧
        (∀ j, off + blob.length ≤ j → buf.getD j 0 = 0)) := by
  constructor
  · intro h0
    have h0' : kstart &&& (PAGE_SIZE_4K - 1) = 0 := h0
    have hstep : prepare_vdso_pages v2p allocAddr kstart blob =
        (Except.ok ⟨v2p kstart, blob,
          (blob.length + PAGE_SIZE_4K - 1) &&& (2 ^ 64 - PAGE_SIZE_4K), 0, none, none⟩,
          []) := by
      simp only [prepare_vdso_pages]
      rw [if_pos h0']
    rw [hstep]
    have hsz : (blob.length + PAGE_SIZE_4K - 1) &&& (2 ^ 64 - PAGE_SIZE_4K) =
        (blob.length + 4095) / 4096 * 4096 := by
      have harith : blob.length + PAGE_SIZE_4K - 1 = blob.length + 4095 := by
        simp only [PAGE_SIZE_4K]
        omega
      rw [harith, show (PAGE_SIZE_4K : Nat) = 4096 from rfl]
      exact land_align_mask _ (by omega)
    rw [hsz]
  · intro off hoff hoffne a ha
    have hoff' : kstart &&& (PAGE_SIZE_4K - 1) = off := hoff
    have hoffle : off ≤ 4095 := by
      have : kstart &&& 4095 = kstart % 4096 := by
        rw [show (4095 : Nat) = 2 ^ 12 - 1 by norm_num,
          Nat.and_pow_two_sub_one_eq_mod]
      omega
    have harith : blob.length + off + PAGE_SIZE_4K - 1 = blob.length + off + 4095 := by
      simp only [PAGE_SIZE_4K]
      omega
    have hszlt : ¬(2 ^ 63 ≤ (blob.length + off + PAGE_SIZE_4K - 1) / PAGE_SIZE_4K *
        PAGE_SIZE_4K) := by
      simp only [PAGE_SIZE_4K] at harith ⊢
      rw [harith]
      have hd := Nat.div_add_mod (blob.length + off + 4095) 4096
      have hm : (blob.length + off + 4095) % 4096 < 4096 := Nat.mod_lt _ (by norm_num)
      omega
    have ha' : allocAddr ((blob.length + off + PAGE_SIZE_4K - 1) / PAGE_SIZE_4K *
        PAGE_SIZE_4K) = some a := by
      simp only [PAGE_SIZE_4K] at harith ⊢
      rw [harith]
      exact ha
    have hstep : prepare_vdso_pages v2p allocAddr kstart blob =
        (Except.ok ⟨v2p a,
          ((copyNonoverlapping blob
              (List.replicate ((blob.length + off + PAGE_SIZE_4K - 1) / PAGE_SIZE_4K *
                PAGE_SIZE_4K) 0) off).drop off).take blob.length,
          (blob.length + off + PAGE_SIZE_4K - 1) / PAGE_SIZE_4K * PAGE_SIZE_4K, off,
          some (a, (blob.length + off + PAGE_SIZE_4K - 1) / PAGE_SIZE_4K),
          some (copyNonoverlapping blob
            (List.replicate ((blob.length + off + PAGE_SIZE_4K - 1) / PAGE_SIZE_4K *
              PAGE_SIZE_4K) 0) off)⟩,
          [(a, (blob.length + off + PAGE_SIZE_4K - 1) / PAGE_SIZE_4K * PAGE_SIZE_4K)]) := by
      simp only [prepare_vdso_pages]
      rw [hoff', if_neg hoffne, if_neg hszlt, ha']
    have hbound : off + blob.length ≤
        ((blob.length + off + PAGE_SIZE_4K - 1) / PAGE_SIZE_4K * PAGE_SIZE_4K) := by
      simp only [PAGE_SIZE_4K]
      rw [show blob.length + off + 4096 - 1 = blob.length + off + 4095 by omega]
      have hd := Nat.div_add_mod (blob.length + off + 4095) 4096
      have hm : (blob.length + off + 4095) % 4096 < 4096 := Nat.mod_lt _ (by norm_num)
      omega
    refine ⟨copyNonoverlapping blob
      (List.replicate ((blob.length + off + PAGE_SIZE_4K - 1) / PAGE_SIZE_4K *
        PAGE_SIZE_4K) 0) off, ?_, halign _ _ ha, ?_, ?_, ?_, ?_⟩
    · rw [hstep]
      have hslice : ((copyNonoverlapping blob
          (List.replicate ((blob.length + off + PAGE_SIZE_4K - 1) / PAGE_SIZE_4K *
            PAGE_SIZE_4K) 0) off).drop off).take blob.length = blob :=
        copyNonoverlapping_slice _ _ _ (by rw [List.length_replicate]; exact hbound)
      rw [hslice]
      simp only [PAGE_SIZE_4K] at harith ⊢
      rw [harith]
    · rw [copyNonoverlapping_length, List.length_replicate]
      simp only [PAGE_SIZE_4K] at harith ⊢
      rw [harith]
    · exact copyNonoverlapping_slice _ _ _ (by rw [List.length_replicate]; exact hbound)
    · intro j hj
      rw [copyNonoverlapping_getD_lt _ _ _ _ _ hj]
      simp only [List.getD_eq_getElem?_getD, List.getElem?_replicate]
      split <;> rfl
    · intro j hj
      rw [copyNonoverlapping_getD_ge _ _ _ _ _ (by omega)]
      simp only [List.getD_eq_getElem?_getD, List.getElem?_replicate]
      split <;> rfl

/-- Claim C7, witness: `blob_start mod 4096 = 100`, `len = 5000` gives
aligned size 8192 and two owned pages, with the blob bytes at
`[100, 5100)` of the zero-filled buffer. -/
theorem prepare_pages_shape_witness :
    (∃ buf : List Nat,
      (prepare_vdso_pages (fun x => x) (fun _ => some 8192) 20580
          (List.replicate 5000 7)).1 =
        Except.ok ⟨8192, List.replicate 5000 7, 8192, 100, some (8192, 2), some buf⟩ ∧
      buf.length = 8192 ∧
      (buf.drop 100).take 5000 = List.replicate 5000 7 ∧
      (∀ j, j < 100 → buf[j]?.getD 0 = 0) ∧
      (∀ j, 5100 ≤ j → buf[j]?.getD 0 = 0)) ∧
    8192 % 4096 = 0 := by
  have h := (prepare_pages_shape (fun x => x) (fun _ => some 8192) 20580
    (List.replicate 5000 7) (by rw [List.length_replicate]; norm_num)
    (by intro sz a2 ha2; injection ha2 with ha2; omega)).2
    100 (by decide) (by decide) 8192 rfl
  simp only [List.length_replicate] at h
  norm_num at h
  exact ⟨h, by norm_num⟩

/-! ## Claim C8 -/

/-- Claim C8: `prepare_vdso_pages` surfaces allocation/layout failure to
the caller as the distinct error value `AxError::InvalidExecutable`,
never panics (every run returns either `Ok` or that error), and after a
failure no allocation remains live; on success every allocation the call
made is owned by the returned descriptor.  The `VdsoAllocGuard` releases
the held allocation on drop unless `disarm()` was called first, which
clears the held allocation without releasing it. -/
theorem prepare_pages_error_handling (v2p : Nat → Nat) (allocAddr : Nat → Option Nat)
    (kstart : Nat) (blob : List Nat) :
    ((∃ info, (prepare_vdso_pages v2p allocAddr kstart blob).1 = Except.ok info) ∨
      (prepare_vdso_pages v2p allocAddr kstart blob).1 =
        Except.error AxError.InvalidExecutable) ∧
    (∀ e, (prepare_vdso_pages v2p allocAddr kstart blob).1 = Except.error e →
      e = AxError.InvalidExecutable ∧
      (prepare_vdso_pages v2p allocAddr kstart blob).2 = []) ∧
    (∀ info, (prepare_vdso_pages v2p allocAddr kstart blob).1 = Except.ok info →
      (prepare_vdso_pages v2p allocAddr kstart blob).2 =
        (match info.alloc with
          | none => []
          | some (av, pages) => [(av, pages * PAGE_SIZE_4K)])) ∧
    (∀ av pages, pages * PAGE_SIZE_4K < 2 ^ 63 →
      guardDropFrees (VdsoAllocGuard.new (some (av, pages))) = [(av, pages * PAGE_SIZE_4K)]) ∧
    (∀ g : VdsoAllocGuard, guardDropFrees g.disarm = [] ∧ (g.disarm).alloc = none) := by
  have hcases : (∃ info, prepare_vdso_pages v2p allocAddr kstart blob =
      (Except.ok info, match info.alloc with
        | none => []
        | some (av, pages) => [(av, pages * PAGE_SIZE_4K)])) ∨
      prepare_vdso_pages v2p allocAddr kstart blob =
        (Except.error AxError.InvalidExecutable, []) := by
    simp only [prepare_vdso_pages]
    by_cases h0 : kstart &&& (PAGE_SIZE_4K - 1) = 0
    · rw [if_pos h0]
      exact Or.inl ⟨_, rfl⟩
    · rw [if_neg h0]
      by_cases hlay : 2 ^ 63 ≤ (blob.length + (kstart &&& (PAGE_SIZE_4K - 1)) +
          PAGE_SIZE_4K - 1) / PAGE_SIZE_4K * PAGE_SIZE_4K
      · rw [if_pos hlay]
        exact Or.inr rfl
      · rw [if_neg hlay]
        cases halloc : allocAddr ((blob.length + (kstart &&& (PAGE_SIZE_4K - 1)) +
            PAGE_SIZE_4K - 1) / PAGE_SIZE_4K * PAGE_SIZE_4K) with
        | none => exact Or.inr rfl
        | some av => exact Or.inl ⟨_, rfl⟩
  refine ⟨?_, ?_, ?_, ?_, ?_⟩
  · rcases hcases with ⟨info, hinfo⟩ | herr
    · exact Or.inl ⟨info, by rw [hinfo]⟩
    · exact Or.inr (by rw [herr])
  · intro e he
    rcases hcases with ⟨info, hinfo⟩ | herr
    · rw [hinfo] at he
      exact absurd he (by simp)
    · rw [herr] at he
      have he' : AxError.InvalidExecutable = e := Except.error.inj he
      exact ⟨he'.symm, by rw [herr]⟩
  · intro info hinfo'
    rcases hcases with ⟨info2, hinfo⟩ | herr
    · rw [hinfo] at hinfo'
      have heq : info2 = info := Except.ok.inj hinfo'
      rw [hinfo, heq]
    · rw [herr] at hinfo'
      exact absurd hinfo' (by simp)
  · intro av pages hp
    simp only [guardDropFrees, VdsoAllocGuard.new]
    rw [if_neg (by omega)]
  · intro g
    exact ⟨rfl, rfl⟩

/-- Claim C8, witness: a failing allocator yields the error with no live
allocation; the guard frees an armed allocation and a disarmed guard
frees nothing. -/
theorem prepare_pages_error_handling_witness :
    (prepare_vdso_pages (fun x => x) (fun _ => none) 100 [1, 2, 3]).2 = [] ∧
    guardDropFrees (VdsoAllocGuard.new (some (7, 2))) = [(7, 2 * PAGE_SIZE_4K)] ∧
    guardDropFrees (VdsoAllocGuard.disarm (VdsoAllocGuard.new (some (7, 2)))) = [] := by
  have h := prepare_pages_error_handling (fun x => x) (fun _ => none) 100 [1, 2, 3]
  exact ⟨(h.2.1 AxError.InvalidExecutable (by rfl)).2,
    h.2.2.2.1 7 2 (by decide), (h.2.2.2.2 (VdsoAllocGuard.new (some (7, 2)))).1⟩

/-! ## Claim C5 -/

/-- Claim C5: for a counter-mode clock record with `cycle_last = 0`
(first update ever), one call to `update_vdso_clock` adopts the candidate
unconditionally (`mult`, `shift`), and afterwards
`cycle_last = tick_now`, `basetime[1].sec = mono_ns / 1e9` and
`basetime[1].nsec = (mono_ns % 1e9) << shift` (as a `u64` value). -/
theorem first_update_adopts (clk : VdsoClock) (cycle_now wall_ns mono_ns : Nat)
    (ms : Nat × Nat) (hmode : clk.clock_mode ≠ ClockModeNone) (hfirst : clk.cycle_last = 0)
    (hlen : clk.basetime.length = 16) :
    (update_vdso_clock clk cycle_now wall_ns mono_ns ms).mult = ms.1 ∧
    (update_vdso_clock clk cycle_now wall_ns mono_ns ms).shift = ms.2 ∧
    (update_vdso_clock clk cycle_now wall_ns mono_ns ms).cycle_last = cycle_now ∧
    ((update_vdso_clock clk cycle_now wall_ns mono_ns ms).basetime.getD 1 ⟨0, 0⟩).sec =
      mono_ns / 1000000000 ∧
    ((update_vdso_clock clk cycle_now wall_ns mono_ns ms).basetime.getD 1 ⟨0, 0⟩).nsec =
      mono_ns % 1000000000 * 2 ^ ms.2 % 2 ^ 64 := by
  have hstep : update_vdso_clock clk cycle_now wall_ns mono_ns ms =
      (let clk1 := adoptCandidate clk ms mono_ns cycle_now
       let bt0set := clk1.basetime.set 0
         ⟨wall_ns / NANOS_PER_SEC, (wall_ns % NANOS_PER_SEC) * 2 ^ clk1.shift % 2 ^ 64⟩
       { clk1 with basetime := bt0set.set 7 (bt0set.getD 1 ⟨0, 0⟩) }) := by
    simp only [update_vdso_clock]
    rw [if_pos hmode, if_pos hfirst]
  rw [hstep]
  simp only [adoptCandidate]
  refine ⟨trivial, trivial, trivial, ?_, ?_⟩ <;>
    rw [getD_set_ne _ 7 1 _ _ (by decide), getD_set_ne _ 0 1 _ _ (by decide),
      getD_set_self _ 1 _ _ (by rw [hlen]; norm_num)] <;>
    simp [NANOS_PER_SEC]

/-- Claim C5, witness: a fresh record, `tick_now = 1234`,
`mono_ns = 7000000003`, candidate `(2796202667, 26)`. -/
theorem first_update_adopts_witness :
    (update_vdso_clock VdsoClock.new 1234 5 7000000003 (2796202667, 26)).mult = 2796202667 ∧
    (update_vdso_clock VdsoClock.new 1234 5 7000000003 (2796202667, 26)).shift = 26 ∧
    (update_vdso_clock VdsoClock.new 1234 5 7000000003 (2796202667, 26)).cycle_last = 1234 ∧
    ((update_vdso_clock VdsoClock.new 1234 5 7000000003 (2796202667, 26)).basetime.getD 1
      ⟨0, 0⟩).sec = 7 ∧
    ((update_vdso_clock VdsoClock.new 1234 5 7000000003 (2796202667, 26)).basetime.getD 1
      ⟨0, 0⟩).nsec = 201326592 :=
  first_update_adopts VdsoClock.new 1234 5 7000000003 (2796202667, 26)
    (by decide) (by decide) (by decide)

/-! ## Claim C1 -/

/-- Claim C1, counterexample.  `clkC1ex` stores its monotonic base with
`shift = 1` as `basetime[1] = {sec: 0, nsec: 2}` (1 ns denormalized) and
has anchor tick 5.  On the sentinel-candidate path with `tick_now = 6`,
`mono_ns = 3`, the code computes `delta_ns = 3 - (0 * 1e9 + 2) = 1`
(raw stored `nsec`), adopting `clocks_calc_mult_shift(1, 1, 1) = shift 31`,
whereas the claim's `denormalize` reading computes
`delta_ns = 3 - (0 * 1e9 + 2 >> 1) = 2` and would adopt
`clocks_calc_mult_shift(1, 2, 1) = shift 30`: the two disagree. -/
theorem recalibration_denorm_counterexample :
    update_vdso_clock clkC1ex 6 0 3 (U32_MAX, 0) ≠
      update_vdso_clock_denormC1 clkC1ex 6 0 3 (U32_MAX, 0) ∧
    (update_vdso_clock clkC1ex 6 0 3 (U32_MAX, 0)).shift = 31 ∧
    (update_vdso_clock_denormC1 clkC1ex 6 0 3 (U32_MAX, 0)).shift = 30 := by
  refine ⟨by decide, by decide, by decide⟩

/-- Claim C1 (amended): in counter mode with `cycle_last ≠ 0` and the
sentinel candidate `(u32::MAX, 0)`, the routine computes
`delta_ticks = (tick_now - cycle_last) & mask` wraparound-safely (as the
masked wrapped difference `deltaTicks`) and
`delta_ns = max(0, mono_ns - (basetime[1].sec * 1e9 + basetime[1].nsec))`
where the stored `nsec` is added *raw* (not denormalized through the
record's shift encoding, contrary to the claim's `denormalize`); if both
deltas are nonzero it adopts the frequency converter's result for
`(delta_ticks, delta_ns, 1)` the same way as a first update, and
otherwise it leaves `mult`, `shift` and `cycle_last` unchanged. -/
theorem recalibration_branch (clk : VdsoClock) (cycle_now wall_ns mono_ns : Nat)
    (hmode : clk.clock_mode ≠ ClockModeNone) (hlast : clk.cycle_last ≠ 0)
    (hlen : clk.basetime.length = 16) :
    (deltaTicks clk cycle_now ≠ 0 → 0 < mono_ns - rawBaseNs clk →
      ∃ m s, clocks_calc_mult_shift (deltaTicks clk cycle_now) (mono_ns - rawBaseNs clk) 1 =
          some (m, s) ∧
        (update_vdso_clock clk cycle_now wall_ns mono_ns (U32_MAX, 0)).mult = m ∧
        (update_vdso_clock clk cycle_now wall_ns mono_ns (U32_MAX, 0)).shift = s ∧
        (update_vdso_clock clk cycle_now wall_ns mono_ns (U32_MAX, 0)).cycle_last = cycle_now ∧
        ((update_vdso_clock clk cycle_now wall_ns mono_ns (U32_MAX, 0)).basetime.getD 1
            ⟨0, 0⟩).sec = mono_ns / 1000000000 ∧
        ((update_vdso_clock clk cycle_now wall_ns mono_ns (U32_MAX, 0)).basetime.getD 1
            ⟨0, 0⟩).nsec = mono_ns % 1000000000 * 2 ^ s % 2 ^ 64) ∧
    (deltaTicks clk cycle_now = 0 ∨ mono_ns - rawBaseNs clk = 0 →
      (update_vdso_clock clk cycle_now wall_ns mono_ns (U32_MAX, 0)).mult = clk.mult ∧
      (update_vdso_clock clk cycle_now wall_ns mono_ns (U32_MAX, 0)).shift = clk.shift ∧
      (update_vdso_clock clk cycle_now wall_ns mono_ns (U32_MAX, 0)).cycle_last =
        clk.cycle_last) := by
  have hnotadopt : ¬¬(True ∧ True) := by simp
  constructor
  · intro hdc hdn
    obtain ⟨p, hp⟩ := (calc_total_iff_from_ne_zero (deltaTicks clk cycle_now)
      (mono_ns - rawBaseNs clk) 1).2 hdc
    have hdc' : ((cycle_now + 2 ^ 64 - clk.cycle_last) % 2 ^ 64) &&& clk.mask ≠ 0 := hdc
    have hdn' : 0 < mono_ns - ((clk.basetime.getD 1 ⟨0, 0⟩).sec * NANOS_PER_SEC +
        (clk.basetime.getD 1 ⟨0, 0⟩).nsec) % 2 ^ 64 := hdn
    have hp' : clocks_calc_mult_shift
        (((cycle_now + 2 ^ 64 - clk.cycle_last) % 2 ^ 64) &&& clk.mask)
        (mono_ns - ((clk.basetime.getD 1 ⟨0, 0⟩).sec * NANOS_PER_SEC +
          (clk.basetime.getD 1 ⟨0, 0⟩).nsec) % 2 ^ 64) 1 = some p := hp
    have hstep : update_vdso_clock clk cycle_now wall_ns mono_ns (U32_MAX, 0) =
        (let clk1 := adoptCandidate clk p mono_ns cycle_now
         let bt0set := clk1.basetime.set 0
           ⟨wall_ns / NANOS_PER_SEC, (wall_ns % NANOS_PER_SEC) * 2 ^ clk1.shift % 2 ^ 64⟩
         { clk1 with basetime := bt0set.set 7 (bt0set.getD 1 ⟨0, 0⟩) }) := by
      simp only [update_vdso_clock]
      rw [if_pos hmode, if_neg hlast, if_neg hnotadopt, if_pos ⟨hdc', hdn'⟩, hp']
    refine ⟨p.1, p.2, by rw [hp], ?_⟩
    rw [hstep]
    simp only [adoptCandidate]
    refine ⟨trivial, trivial, trivial, ?_, ?_⟩ <;>
      rw [getD_set_ne _ 7 1 _ _ (by decide), getD_set_ne _ 0 1 _ _ (by decide),
        getD_set_self _ 1 _ _ (by rw [hlen]; norm_num)] <;>
      simp [NANOS_PER_SEC]
  · intro hskip
    have hcond : ¬(((cycle_now + 2 ^ 64 - clk.cycle_last) % 2 ^ 64) &&& clk.mask ≠ 0 ∧
        0 < mono_ns - ((clk.basetime.getD 1 ⟨0, 0⟩).sec * NANOS_PER_SEC +
          (clk.basetime.getD 1 ⟨0, 0⟩).nsec) % 2 ^ 64) := by
      rcases hskip with h | h
      · intro hc
        exact hc.1 h
      · intro hc
        have h2 : (0 : Nat) < 0 := by
          calc (0 : Nat) < mono_ns - rawBaseNs clk := hc.2
          _ = 0 := h
        exact absurd h2 (by norm_num)
    have hstep : update_vdso_clock clk cycle_now wall_ns mono_ns (U32_MAX, 0) =
        (let clk1 := clk
         let bt0set := clk1.basetime.set 0
           ⟨wall_ns / NANOS_PER_SEC, (wall_ns % NANOS_PER_SEC) * 2 ^ clk1.shift % 2 ^ 64⟩
         { clk1 with basetime := bt0set.set 7 (bt0set.getD 1 ⟨0, 0⟩) }) := by
      simp only [update_vdso_clock]
      rw [if_pos hmode, if_neg hlast, if_neg hnotadopt, if_neg hcond]
    rw [hstep]
    exact ⟨rfl, rfl, rfl⟩

/-- Claim C1 (amended), witness: the wrapped-counter record `clkWrap`
(`mask = 0xFFFF_FFFF`, anchor `2^32 - 10`) at `tick_now = 5` yields the
positive masked delta 15 and recalibration proceeds. -/
theorem recalibration_branch_witness :
    deltaTicks clkWrap 5 = 15 ∧
    (∃ m s, clocks_calc_mult_shift (deltaTicks clkWrap 5) (3 - rawBaseNs clkWrap) 1 =
        some (m, s) ∧
      (update_vdso_clock clkWrap 5 0 3 (U32_MAX, 0)).mult = m ∧
      (update_vdso_clock clkWrap 5 0 3 (U32_MAX, 0)).shift = s ∧
      (update_vdso_clock clkWrap 5 0 3 (U32_MAX, 0)).cycle_last = 5 ∧
      ((update_vdso_clock clkWrap 5 0 3 (U32_MAX, 0)).basetime.getD 1 ⟨0, 0⟩).sec =
        3 / 1000000000 ∧
      ((update_vdso_clock clkWrap 5 0 3 (U32_MAX, 0)).basetime.getD 1 ⟨0, 0⟩).nsec =
        3 % 1000000000 * 2 ^ s % 2 ^ 64) :=
  ⟨by decide,
    (recalibration_branch clkWrap 5 0 3 (by decide) (by decide) (by decide)).1
      (by decide) (by decide)⟩
